import Mathlib

/-!
Shallow embedding of `src/scheduler.py`, an in-process periodic task
scheduler (a derivative of the `schedule` library): the `Job` model with its
due-time computation and the `Scheduler` with its due-selection, ordering and
bulk-run operations.

Modelling conventions:

* Wall-clock instants (`datetime.datetime.now()`) are natural numbers counting
  whole seconds since a midnight-aligned epoch; `datetime.time` values become
  seconds-of-day.  Every operation that reads the clock takes the current
  instant `now` as an explicit parameter; within one call the clock is frozen
  (the Python code may observe the clock several times during one call,
  microseconds apart, which no claim depends on).
* Python exceptions are explicit.  A method that mutates `self` returns the
  object state it leaves behind together with `Option PyError`, because
  mutations performed before a `raise` persist in Python.  A method that does
  not mutate returns `Except PyError`.
* A bound action (`functools.partial(job_func, ...)`) is opaque external
  code; the model keeps only the outcome invoking it produces:
  `Except String Unit` (`Except.error msg` models the action raising).
* Python objects have identity, and `Scheduler.jobs` aliases the `Job`
  objects that `run` mutates in place; the ghost field `Job.id` records that
  object identity so that in-place update can be rendered functionally.
* `time_str` arguments are `List Char` (a Python `str` is a character
  sequence); `splitColon` and `pyInt` model `str.split(':')` and `int(...)`,
  including `int()`'s full whitespace stripping, the optional sign, PEP 515
  single-underscore grouping between digits, and the Unicode decimal-digit
  (Nd) blocks that CPython maps to ASCII digits before parsing (the Nd
  table of Unicode 15.0).
-/

/-- The Python exceptions the scheduler code can raise: `TypeError` (calling
or comparing `None`), `AssertionError` (a failed `assert`), `ValueError`
(failed `int(...)` parse, failed tuple unpack, `min` of an empty sequence),
and an arbitrary exception raised by a bound action. -/
inductive PyError
  | typeError
  | assertionError
  | valueError
  | actionError (msg : String)
  deriving DecidableEq, Repr

/-- The five recognized cadence units (`self.unit` strings). -/
inductive TimeUnit
  | seconds
  | minutes
  | hours
  | days
  | weeks
  deriving DecidableEq, Repr

/-- Seconds in one unit: `datetime.timedelta(**{unit: 1}).total_seconds()`. -/
def TimeUnit.durationSecs : TimeUnit → Nat
  | .seconds => 1
  | .minutes => 60
  | .hours => 3600
  | .days => 86400
  | .weeks => 604800

/-- A `datetime.time` value at whole-second granularity. -/
structure AtTime where
  hour : Nat
  minute : Nat
  second : Nat
  deriving DecidableEq, Repr

/-- Seconds-of-day a `datetime.time` denotes; `datetime.time` comparison is
lexicographic on (hour, minute, second), i.e. comparison of these numbers. -/
def AtTime.toSecs (a : AtTime) : Nat :=
  a.hour * 3600 + a.minute * 60 + a.second

/-- Seconds-of-day component of an instant: `t.time()`. -/
def timeOfDay (t : Nat) : Nat := t % 86400

/-- `t.replace(hour=a.hour, minute=a.minute, second=a.second, microsecond=0)`:
keep the date of `t`, overwrite its time-of-day component. -/
def replaceTime (t : Nat) (a : AtTime) : Nat :=
  (t / 86400) * 86400 + a.toSecs

/-- `str.split(':')` on a character sequence. -/
def splitColon : List Char → List (List Char)
  | [] => [[]]
  | c :: cs =>
    if c = ':' then [] :: splitColon cs
    else
      match splitColon cs with
      | [] => [[c]]
      | p :: ps => (c :: p) :: ps

/-- Code-point bases of the decimal-digit (Nd) blocks of Unicode 15.0; each
block is the run `base..base+9` carrying digit values 0..9.  CPython's
`int()` maps every Nd digit to the corresponding ASCII digit before
parsing. -/
def ndBases : List Nat :=
  [0x30, 0x660, 0x6F0, 0x7C0, 0x966, 0x9E6, 0xA66, 0xAE6, 0xB66, 0xBE6,
   0xC66, 0xCE6, 0xD66, 0xDE6, 0xE50, 0xED0, 0xF20, 0x1040, 0x1090, 0x17E0,
   0x1810, 0x1946, 0x19D0, 0x1A80, 0x1A90, 0x1B50, 0x1BB0, 0x1C40, 0x1C50,
   0xA620, 0xA8D0, 0xA900, 0xA9D0, 0xA9F0, 0xAA50, 0xABF0, 0xFF10,
   0x104A0, 0x10D30, 0x11066, 0x110F0, 0x11136, 0x111D0, 0x112F0, 0x11450,
   0x114D0, 0x11650, 0x116C0, 0x11730, 0x118E0, 0x11950, 0x11C50, 0x11D50,
   0x11DA0, 0x11F50, 0x16A60, 0x16AC0, 0x16B50, 0x1D7CE, 0x1D7D8, 0x1D7E2,
   0x1D7EC, 0x1D7F6, 0x1E140, 0x1E2F0, 0x1E4F0, 0x1E950, 0x1FBF0]

/-- Digit value of a Unicode decimal digit (category Nd), `none` for any
other character. -/
def pyDigitVal (c : Char) : Option Nat :=
  match ndBases.find? (fun b => b ≤ c.toNat && c.toNat ≤ b + 9) with
  | some b => some (c.toNat - b)
  | none => none

/-- The characters CPython's `int()` strips as whitespace
(`Py_UNICODE_ISSPACE`): ASCII TAB/LF/VT/FF/CR, the \x1c-\x1f separators,
SPACE, NEL, NBSP, OGHAM SPACE MARK, the \u2000-\u200A spaces, LINE and
PARAGRAPH SEPARATOR, NNBSP, MMSP and IDEOGRAPHIC SPACE. -/
def isPyWS (c : Char) : Bool :=
  (9 ≤ c.toNat && c.toNat ≤ 13) || (0x1C ≤ c.toNat && c.toNat ≤ 0x1F) ||
    c.toNat = 32 || c.toNat = 0x85 || c.toNat = 0xA0 || c.toNat = 0x1680 ||
    (0x2000 ≤ c.toNat && c.toNat ≤ 0x200A) || c.toNat = 0x2028 ||
    c.toNat = 0x2029 || c.toNat = 0x202F || c.toNat = 0x205F ||
    c.toNat = 0x3000

/-- Strip leading and trailing `int()`-whitespace. -/
def stripWS (l : List Char) : List Char :=
  ((l.dropWhile isPyWS).reverse.dropWhile isPyWS).reverse

/-- Parse the remainder of a digit run, `digit (_? digit)*`-style, with the
value so far in `acc`: decimal digits of any Nd script accumulate; a single
underscore is allowed only when another digit follows (PEP 515); anything
else fails. -/
def digitsToNat : Nat → List Char → Option Nat
  | acc, [] => some acc
  | acc, c :: cs =>
    match pyDigitVal c with
    | some d => digitsToNat (acc * 10 + d) cs
    | none =>
      if c = '_' then
        match cs with
        | c2 :: _ =>
          if (pyDigitVal c2).isSome then digitsToNat acc cs else none
        | [] => none
      else none

/-- The digit-run part of `int()`'s input: nonempty and starting with a
digit (so no leading underscore), then `digitsToNat`. -/
def pyIntBody (t : List Char) : Option Nat :=
  match t with
  | c :: _ => if (pyDigitVal c).isSome then digitsToNat 0 t else none
  | [] => none

/-- Python `int(s)`: strip surrounding `int()`-whitespace, an optional
sign, then a run of decimal digits (any Unicode Nd script) with PEP 515
single-underscore grouping between digits; everything else raises
`ValueError`, modelled as `none`. -/
def pyInt (s : List Char) : Option Int :=
  match stripWS s with
  | '-' :: rest => (pyIntBody rest).map (fun n => -(n : Int))
  | '+' :: rest => (pyIntBody rest).map (fun n => (n : Int))
  | t => (pyIntBody t).map (fun n => (n : Int))

instance {ε α : Type} [DecidableEq ε] [DecidableEq α] : DecidableEq (Except ε α)
  | .ok a, .ok b =>
    if h : a = b then isTrue (by rw [h]) else isFalse (by simp [h])
  | .ok _, .error _ => isFalse (by simp)
  | .error _, .ok _ => isFalse (by simp)
  | .error a, .error b =>
    if h : a = b then isTrue (by rw [h]) else isFalse (by simp [h])

/-- The `Job` object.  `id` is the ghost object identity (see module
comment); every other field is a field of the Python object. -/
structure Job where
  id : Nat
  interval : Nat
  job_func : Option (Except String Unit) := none
  unit : Option TimeUnit := none
  at_time : Option AtTime := none
  last_run : Option Nat := none
  next_run : Option Nat := none
  period : Option Nat := none
  deriving DecidableEq, Repr

/-- `Job.__init__(self, interval)`: every other attribute starts as `None`. -/
def Job.init (id interval : Nat) : Job :=
  { id := id, interval := interval }

/-- The `seconds` property: sets `self.unit = 'seconds'`, returns `self`. -/
def Job.seconds (j : Job) : Job := { j with unit := some TimeUnit.seconds }

/-- The `second` property: `assert self.interval == 1`, then `seconds`. -/
def Job.second (j : Job) : Except PyError Job :=
  if j.interval = 1 then .ok j.seconds else .error .assertionError

/-- The `minutes` property. -/
def Job.minutes (j : Job) : Job := { j with unit := some TimeUnit.minutes }

/-- The `minute` property: singular form, requires `interval == 1`. -/
def Job.minute (j : Job) : Except PyError Job :=
  if j.interval = 1 then .ok j.minutes else .error .assertionError

/-- The `hours` property. -/
def Job.hours (j : Job) : Job := { j with unit := some TimeUnit.hours }

/-- The `hour` property: singular form, requires `interval == 1`. -/
def Job.hour (j : Job) : Except PyError Job :=
  if j.interval = 1 then .ok j.hours else .error .assertionError

/-- The `days` property. -/
def Job.days (j : Job) : Job := { j with unit := some TimeUnit.days }

/-- The `day` property: singular form, requires `interval == 1`. -/
def Job.day (j : Job) : Except PyError Job :=
  if j.interval = 1 then .ok j.days else .error .assertionError

/-- The `weeks` property. -/
def Job.weeks (j : Job) : Job := { j with unit := some TimeUnit.weeks }

/-- The `week` property: singular form, requires `interval == 1`. -/
def Job.week (j : Job) : Except PyError Job :=
  if j.interval = 1 then .ok j.weeks else .error .assertionError

/-- `[int(t) for t in parts]`: parse every part, the first failure raising
`ValueError` (modelled as `none`). -/
def pyIntList : List (List Char) → Option (List Int)
  | [] => some []
  | s :: ss =>
    match pyInt s, pyIntList ss with
    | some v, some vs => some (v :: vs)
    | _, _ => none

/-- Numeric value of a list of ASCII digits. -/
def asciiDigitsVal (l : List Char) : Nat :=
  l.foldl (fun a c => a * 10 + (c.toNat - 48)) 0

/-- The spec's `at()` time-string format, stated from the spec's words (its
format section: exactly `"HH:MM"`, 24-hour, zero-padded or not, hour in
[0,23], minute in [0,59], no seconds component): two colon-separated groups
of one or two ASCII digits and nothing else — no sign, no whitespace, no
digit grouping. -/
def specHHMM (ts : List Char) : Option (Nat × Nat) :=
  match splitColon ts with
  | [hs, ms] =>
    if (hs.length = 1 ∨ hs.length = 2) ∧ (ms.length = 1 ∨ ms.length = 2) then
      if hs.all Char.isDigit && ms.all Char.isDigit then
        if asciiDigitsVal hs ≤ 23 ∧ asciiDigitsVal ms ≤ 59 then
          some (asciiDigitsVal hs, asciiDigitsVal ms)
        else none
      else none
    else none
  | _ => none

/-- `Job.at(self, time_str)`:
`assert self.unit == 'days'`;
`hour, minute = [int(t) for t in time_str.split(':')]` (a `ValueError` when a
part does not parse as an integer or when the split does not have exactly two
parts); `assert 0 <= hour <= 23`; `assert 0 <= minute <= 59`;
`self.at_time = datetime.time(hour, minute)` (second component 0).
All failures occur before the mutation, so `Except` is faithful. -/
def Job.«at» (j : Job) (time_str : List Char) : Except PyError Job :=
  if j.unit = some TimeUnit.days then
    match pyIntList (splitColon time_str) with
    | none => .error .valueError
    | some [h, m] =>
      if 0 ≤ h ∧ h ≤ 23 then
        if 0 ≤ m ∧ m ≤ 59 then
          .ok { j with at_time := some ⟨h.toNat, m.toNat, 0⟩ }
        else .error .assertionError
      else .error .assertionError
    | some _ => .error .valueError
  else .error .assertionError

/-- `Job._schedule_next_run(self)`, statement by statement:
`assert self.unit in (...)`; `self.period = timedelta(**{unit: interval})`;
`self.next_run = now + period`; if `at_time` is set: `assert unit == 'days'`
(note `period`/`next_run` are already mutated when this assert fires),
overwrite the time-of-day of `next_run`, and on a first schedule
(`last_run` absent) with `at_time` still ahead of the current time-of-day,
subtract one day. -/
def Job.schedule_next_run (j : Job) (now : Nat) : Job × Option PyError :=
  match j.unit with
  | none => (j, some PyError.assertionError)
  | some u =>
    let p := j.interval * u.durationSecs
    let j1 := { j with period := some p, next_run := some (now + p) }
    match j.at_time with
    | none => (j1, none)
    | some a =>
      if u = TimeUnit.days then
        let nr1 := replaceTime (now + p) a
        let nr2 :=
          if j.last_run = none ∧ timeOfDay now < a.toSecs then nr1 - 86400
          else nr1
        ({ j1 with next_run := some nr2 }, none)
      else (j1, some PyError.assertionError)

/-- `Job.do(self, job_func, *args, **kwargs)`: bind the action (modelled by
the outcome its invocation will produce) and compute the initial
`next_run` via `_schedule_next_run`; returns `self`. -/
def Job.«do» (j : Job) (outcome : Except String Unit) (now : Nat) :
    Job × Option PyError :=
  Job.schedule_next_run { j with job_func := some outcome } now

/-- The `should_run` property: `datetime.datetime.now() >= self.next_run`;
comparing against a `None` `next_run` raises `TypeError`. -/
def Job.should_run (j : Job) (now : Nat) : Except PyError Bool :=
  match j.next_run with
  | none => .error .typeError
  | some nr => .ok (decide (nr ≤ now))

/-- The `next_run` value used for sorting, defaulting to 0; meaningful only
when `next_run` is present (the operations that sort guarantee it). -/
def Job.nr (j : Job) : Nat := j.next_run.getD 0

/-- The due predicate as a Bool, for jobs whose `next_run` is present:
`now >= next_run`. -/
def Job.due (j : Job) (now : Nat) : Bool := decide (j.nr ≤ now)

/-- `Job.run(self)`: call the bound action (a `None` action raises
`TypeError`; a raising action propagates before any mutation), then
`self.last_run = now` and `self._schedule_next_run()`. -/
def Job.run (j : Job) (now : Nat) : Job × Option PyError :=
  match j.job_func with
  | none => (j, some PyError.typeError)
  | some (Except.error e) => (j, some (PyError.actionError e))
  | some (Except.ok _) => Job.schedule_next_run { j with last_run := some now } now

/-- A job whose `run` succeeds: action bound and succeeding, recognized
unit, and an anchor only together with the days unit. -/
def Job.runnable (j : Job) : Bool :=
  j.job_func == some (Except.ok ()) && j.unit.isSome &&
    (!j.at_time.isSome || j.unit == some TimeUnit.days)

/-- A fully configured job as `run_pending` needs it: `runnable` and with a
computed `next_run` (i.e. `do(...)` has completed). -/
def Job.wellConfigured (j : Job) : Bool :=
  j.runnable && j.next_run.isSome

/-- Insert into a list sorted ascending by `next_run`, after strictly
smaller elements (matching the stable Python `sorted` under `Job.__lt__`,
which compares `next_run`). -/
def insertByNextRun (j : Job) : List Job → List Job
  | [] => [j]
  | k :: ks => if k.nr < j.nr then k :: insertByNextRun j ks else j :: k :: ks

/-- Stable sort ascending by `next_run`: `sorted(jobs)` under `Job.__lt__`. -/
def sortByNextRun : List Job → List Job
  | [] => []
  | j :: js => insertByNextRun j (sortByNextRun js)

/-- Run the given jobs in order, collecting `(identity, new state)` pairs;
the first raising `run` aborts the remainder, as an uncaught Python
exception aborts the `for` loop. -/
def runSeq (now : Nat) : List Job → List (Nat × Job) × Option PyError
  | [] => ([], none)
  | j :: js =>
    let r := j.run now
    match r.2 with
    | none =>
      let rest := runSeq now js
      ((j.id, r.1) :: rest.1, rest.2)
    | some e => ([(j.id, r.1)], some e)

/-- In-place mutation through aliases: the job with identity `j.id`, if it
was run, is now in the state recorded in `m`. -/
def applyRuns (m : List (Nat × Job)) (j : Job) : Job :=
  match m.find? (fun p => p.1 == j.id) with
  | some p => p.2
  | none => j

/-- The `Scheduler`: owns the list of jobs (which aliases the mutated `Job`
objects). -/
structure Scheduler where
  jobs : List Job
  deriving DecidableEq, Repr

/-- `Scheduler.every(self, interval)`: append a fresh unconfigured job and
return it for configuration chaining.  `id` is the fresh ghost identity. -/
def Scheduler.every (s : Scheduler) (interval : Nat) (id : Nat) :
    Scheduler × Job :=
  ({ jobs := s.jobs ++ [Job.init id interval] }, Job.init id interval)

/-- `sorted(job for job in self.jobs if job.should_run)` materializes the
generator: `should_run` is evaluated for every job in collection order (a
`None` `next_run` raises there, before anything runs). -/
def collectFlags (now : Nat) : List Job → Except PyError (List (Job × Bool))
  | [] => .ok []
  | j :: js =>
    match j.should_run now with
    | .error e => .error e
    | .ok b =>
      match collectFlags now js with
      | .error e => .error e
      | .ok rest => .ok ((j, b) :: rest)

/-- `Scheduler.run_pending(self)`:
`runnable_jobs = (job for job in self.jobs if job.should_run)`,
`for job in sorted(runnable_jobs): job.run()`.
Returns the scheduler state, the run trace (job identities in execution
order), and the first uncaught exception if any. -/
def Scheduler.run_pending (s : Scheduler) (now : Nat) :
    Scheduler × List Nat × Option PyError :=
  match collectFlags now s.jobs with
  | .error e => (s, [], some e)
  | .ok flagged =>
    let due := (flagged.filter (fun p => p.2)).map (fun p => p.1)
    let r := runSeq now (sortByNextRun due)
    ({ jobs := s.jobs.map (applyRuns r.1) },
     r.1.map (fun p => p.1), r.2)

/-- `Scheduler.run_all(self, delay_seconds)`: run every job in collection
order regardless of `next_run`, sleeping `delay` seconds after each run (so
the k-th job runs at `now + k * delay`); an uncaught exception aborts the
loop, leaving the remaining jobs untouched. -/
def runAllSeq (now delay : Nat) : List Job → List Job × List Nat × Option PyError
  | [] => ([], [], none)
  | j :: js =>
    let r := j.run now
    match r.2 with
    | none =>
      let rest := runAllSeq (now + delay) delay js
      (r.1 :: rest.1, j.id :: rest.2.1, rest.2.2)
    | some e => (r.1 :: js, [j.id], some e)

/-- `Scheduler.run_all(self, delay_seconds=0)` (see `runAllSeq`). -/
def Scheduler.run_all (s : Scheduler) (now delay : Nat) :
    Scheduler × List Nat × Option PyError :=
  let r := runAllSeq now delay s.jobs
  ({ jobs := r.1 }, r.2.1, r.2.2)

/-- `Scheduler.clear(self)`: `del self.jobs[:]`. -/
def Scheduler.clear (_s : Scheduler) : Scheduler := { jobs := [] }

/-- `min(jobs)` scanning left to right with `Job.__lt__` (`item < best`
replaces `best`); a comparison against a `None` `next_run` raises
`TypeError`. -/
def minJob : Job → List Job → Except PyError Job
  | best, [] => .ok best
  | best, j :: js =>
    match j.next_run, best.next_run with
    | some a, some b => if a < b then minJob j js else minJob best js
    | _, _ => .error .typeError

/-- `Scheduler.next_run` property: `min(self.jobs).next_run`; `min` of an
empty sequence raises `ValueError`.  (A single job never bound by `do` makes
`min` succeed and the property return `None`, hence the `Option`.) -/
def Scheduler.next_run (s : Scheduler) : Except PyError (Option Nat) :=
  match s.jobs with
  | [] => .error .valueError
  | j :: js => (minJob j js).map (fun k => k.next_run)

/-- `Scheduler.idle_seconds` property: `(next_run - now).total_seconds()`;
subtracting from a `None` `next_run` raises `TypeError`. -/
def Scheduler.idle_seconds (s : Scheduler) (now : Nat) : Except PyError Int :=
  match s.next_run with
  | .error e => .error e
  | .ok none => .error .typeError
  | .ok (some t) => .ok ((t : Int) - (now : Int))

/-! Helper lemmas about the due-time computation. -/

theorem TimeUnit.durationSecs_pos (u : TimeUnit) : 1 ≤ u.durationSecs := by
  cases u <;> simp [TimeUnit.durationSecs]

theorem replaceTime_add (now k : Nat) (a : AtTime) :
    replaceTime (now + k * 86400) a = (now / 86400 + k) * 86400 + a.toSecs := by
  unfold replaceTime
  rw [Nat.add_mul_div_right _ _ (by norm_num : 0 < 86400)]

theorem Job.schedule_next_run_no_anchor (j : Job) (now : Nat) (u : TimeUnit)
    (hu : j.unit = some u) (hat : j.at_time = none) :
    j.schedule_next_run now =
      ({ j with period := some (j.interval * u.durationSecs),
                next_run := some (now + j.interval * u.durationSecs) }, none) := by
  unfold Job.schedule_next_run
  rw [hu, hat]

theorem Job.schedule_next_run_anchor (j : Job) (now : Nat) (a : AtTime)
    (hu : j.unit = some TimeUnit.days) (hat : j.at_time = some a) :
    j.schedule_next_run now =
      ({ j with period := some (j.interval * 86400),
                next_run := some (
                  if j.last_run = none ∧ timeOfDay now < a.toSecs
                  then replaceTime (now + j.interval * 86400) a - 86400
                  else replaceTime (now + j.interval * 86400) a) }, none) := by
  unfold Job.schedule_next_run
  rw [hu, hat]
  simp [TimeUnit.durationSecs]

theorem Job.schedule_next_run_err_none (j : Job) (now : Nat) (u : TimeUnit)
    (hu : j.unit = some u) (hat : j.at_time.isSome = true → u = TimeUnit.days) :
    (j.schedule_next_run now).2 = none := by
  cases h : j.at_time with
  | none => rw [Job.schedule_next_run_no_anchor j now u hu h]
  | some a =>
    rw [Job.schedule_next_run_anchor j now a (by rw [hu, hat (by rw [h]; rfl)]) h]

theorem Job.run_of_ok (j : Job) (now : Nat)
    (h : j.job_func = some (Except.ok ())) :
    j.run now = Job.schedule_next_run { j with last_run := some now } now := by
  unfold Job.run
  rw [h]

theorem Job.run_of_fail (j : Job) (now : Nat) (e : String)
    (h : j.job_func = some (Except.error e)) :
    j.run now = (j, some (PyError.actionError e)) := by
  unfold Job.run
  rw [h]

theorem Job.run_of_none (j : Job) (now : Nat) (h : j.job_func = none) :
    j.run now = (j, some PyError.typeError) := by
  unfold Job.run
  rw [h]

theorem Job.runnable_iff (j : Job) :
    j.runnable = true ↔
      j.job_func = some (Except.ok ()) ∧ (∃ u, j.unit = some u) ∧
        (j.at_time.isSome = true → j.unit = some TimeUnit.days) := by
  unfold Job.runnable
  cases h : j.unit <;> cases ha : j.at_time <;>
    simp [Option.isSome, beq_iff_eq]

theorem Job.run_err_none_of_runnable (j : Job) (now : Nat)
    (h : j.runnable = true) :
    (j.run now).2 = none := by
  obtain ⟨hf, ⟨u, hu⟩, hat⟩ := (Job.runnable_iff j).mp h
  rw [Job.run_of_ok j now hf]
  refine Job.schedule_next_run_err_none _ now u hu ?_
  intro hs
  have hd := hat hs
  rw [hu] at hd
  exact Option.some.inj hd

/-! Helper lemmas about sorting and the `run_pending` pipeline. -/

theorem insertByNextRun_perm (j : Job) (l : List Job) :
    (insertByNextRun j l).Perm (j :: l) := by
  induction l with
  | nil => simp [insertByNextRun]
  | cons k ks ih =>
    unfold insertByNextRun
    by_cases h : k.nr < j.nr
    · simp only [h, if_true]
      exact ((ih.cons k).trans (List.Perm.swap j k ks))
    · simp [h]

theorem sortByNextRun_perm (l : List Job) : (sortByNextRun l).Perm l := by
  induction l with
  | nil => simp [sortByNextRun]
  | cons j js ih =>
    exact (insertByNextRun_perm j (sortByNextRun js)).trans (ih.cons j)

theorem insertByNextRun_pairwise (j : Job) (l : List Job)
    (h : l.Pairwise (fun a b => a.nr ≤ b.nr)) :
    (insertByNextRun j l).Pairwise (fun a b => a.nr ≤ b.nr) := by
  induction l with
  | nil => simp [insertByNextRun]
  | cons k ks ih =>
    rw [List.pairwise_cons] at h
    unfold insertByNextRun
    by_cases hk : k.nr < j.nr
    · simp only [hk, if_true]
      rw [List.pairwise_cons]
      refine ⟨?_, ih h.2⟩
      intro x hx
      rcases List.mem_cons.mp (((insertByNextRun_perm j ks).mem_iff).mp hx) with
        hxj | hxk
      · rw [hxj]; exact Nat.le_of_lt hk
      · exact h.1 x hxk
    · simp only [hk, if_false]
      rw [List.pairwise_cons]
      refine ⟨?_, List.pairwise_cons.mpr h⟩
      intro x hx
      rcases List.mem_cons.mp hx with hxk | hxks
      · rw [hxk]; exact Nat.le_of_not_lt hk
      · exact Nat.le_trans (Nat.le_of_not_lt hk) (h.1 x hxks)

theorem sortByNextRun_pairwise (l : List Job) :
    (sortByNextRun l).Pairwise (fun a b => a.nr ≤ b.nr) := by
  induction l with
  | nil => simp [sortByNextRun]
  | cons j js ih => exact insertByNextRun_pairwise j (sortByNextRun js) ih

theorem shouldRun_flags (now : Nat) (l : List Job)
    (h : ∀ j ∈ l, j.next_run.isSome = true) :
    collectFlags now l = Except.ok (l.map (fun j => (j, j.due now))) := by
  induction l with
  | nil => rfl
  | cons j js ih =>
    obtain ⟨t, ht⟩ := Option.isSome_iff_exists.mp (h j (by simp))
    have hj : j.should_run now = Except.ok (j.due now) := by
      unfold Job.should_run Job.due Job.nr
      rw [ht]
      rfl
    unfold collectFlags
    rw [hj, ih (fun k hk => h k (by simp [hk]))]
    rfl

theorem filter_flags (now : Nat) (l : List Job) :
    ((l.map (fun j => (j, j.due now))).filter (fun p => p.2)).map
        (fun p => p.1) =
      l.filter (fun j => j.due now) := by
  induction l with
  | nil => rfl
  | cons j js ih =>
    by_cases h : j.due now <;>
      simp [List.filter_cons, h, ih]

theorem runSeq_of_runnable (now : Nat) (l : List Job)
    (h : ∀ j ∈ l, j.runnable = true) :
    runSeq now l = (l.map (fun j => (j.id, (j.run now).1)), none) := by
  induction l with
  | nil => rfl
  | cons j js ih =>
    have hr := Job.run_err_none_of_runnable j now (h j (by simp))
    unfold runSeq
    rcases hrun : j.run now with ⟨j1, e1⟩
    rw [hrun] at hr
    simp only at hr
    subst hr
    simp only [hrun, ih (fun k hk => h k (by simp [hk])), List.map_cons]

theorem wellConfigured_next_run (j : Job) (h : j.wellConfigured = true) :
    j.next_run.isSome = true := by
  unfold Job.wellConfigured at h
  simp only [Bool.and_eq_true] at h
  exact h.2

theorem wellConfigured_runnable (j : Job) (h : j.wellConfigured = true) :
    j.runnable = true := by
  unfold Job.wellConfigured at h
  simp only [Bool.and_eq_true] at h
  exact h.1

theorem run_pending_of_wellConfigured (s : Scheduler) (now : Nat)
    (h : ∀ j ∈ s.jobs, j.wellConfigured = true) :
    s.run_pending now =
      ({ jobs := s.jobs.map (applyRuns
          ((sortByNextRun (s.jobs.filter (fun j => j.due now))).map
            (fun k => (k.id, (k.run now).1)))) },
       (sortByNextRun (s.jobs.filter (fun j => j.due now))).map Job.id,
       none) := by
  have hns : ∀ j ∈ s.jobs, j.next_run.isSome = true :=
    fun j hj => wellConfigured_next_run j (h j hj)
  have hrn : ∀ j ∈ s.jobs, j.runnable = true :=
    fun j hj => wellConfigured_runnable j (h j hj)
  unfold Scheduler.run_pending
  rw [shouldRun_flags now s.jobs hns]
  simp only [filter_flags]
  have hsort : ∀ k ∈ sortByNextRun (s.jobs.filter (fun j => j.due now)),
      k.runnable = true := by
    intro k hk
    have hkmem := (sortByNextRun_perm _).mem_iff.mp hk
    exact hrn k (List.mem_of_mem_filter hkmem)
  rw [runSeq_of_runnable now _ hsort]
  simp only [List.map_map]
  rfl

theorem applyRuns_char (s : Scheduler) (now : Nat)
    (hnd : (s.jobs.map Job.id).Nodup) (j : Job) (hj : j ∈ s.jobs) :
    applyRuns
        ((sortByNextRun (s.jobs.filter (fun k => k.due now))).map
          (fun k => (k.id, (k.run now).1))) j =
      if j.due now then (j.run now).1 else j := by
  have hmemchar : ∀ q ∈ (sortByNextRun (s.jobs.filter (fun k => k.due now))).map
      (fun k => (k.id, (k.run now).1)), q.1 = j.id →
        q = (j.id, (j.run now).1) ∧ j.due now = true := by
    intro q hq hqid
    obtain ⟨k, hk, hkq⟩ := List.mem_map.mp hq
    have hkD := (sortByNextRun_perm _).mem_iff.mp hk
    have hkjobs := List.mem_of_mem_filter hkD
    have hkdue := (List.mem_filter.mp hkD).2
    have hkid : k.id = j.id := by rw [← hkq] at hqid; exact hqid
    have hkj : k = j := List.inj_on_of_nodup_map hnd hkjobs hj hkid
    subst hkj
    exact ⟨hkq.symm, hkdue⟩
  unfold applyRuns
  cases hfind : ((sortByNextRun (s.jobs.filter (fun k => k.due now))).map
      (fun k => (k.id, (k.run now).1))).find? (fun p => p.1 == j.id) with
  | none =>
    have hnotdue : j.due now = false := by
      by_contra hdue
      simp only [Bool.not_eq_false] at hdue
      have hjD : j ∈ s.jobs.filter (fun k => k.due now) :=
        List.mem_filter.mpr ⟨hj, hdue⟩
      have hjS := (sortByNextRun_perm _).mem_iff.mpr hjD
      have hjM : (j.id, (j.run now).1) ∈
          (sortByNextRun (s.jobs.filter (fun k => k.due now))).map
            (fun k => (k.id, (k.run now).1)) :=
        List.mem_map.mpr ⟨j, hjS, rfl⟩
      have := List.find?_eq_none.mp hfind _ hjM
      simp at this
    rw [hnotdue]
    simp
  | some q =>
    have hqmem := List.mem_of_find?_eq_some hfind
    have hqp := List.find?_some hfind
    have hqid : q.1 = j.id := by simpa using hqp
    obtain ⟨hq, hdue⟩ := hmemchar q hqmem hqid
    rw [hq, hdue]
    simp

theorem run_pending_jobs_char (s : Scheduler) (now : Nat)
    (h : ∀ j ∈ s.jobs, j.wellConfigured = true)
    (hnd : (s.jobs.map Job.id).Nodup) :
    (s.run_pending now).1.jobs =
      s.jobs.map (fun j => if j.due now then (j.run now).1 else j) := by
  rw [run_pending_of_wellConfigured s now h]
  exact List.map_congr_left (fun j hj => applyRuns_char s now hnd j hj)

theorem minJob_spec (l : List Job) : ∀ best : Job, best.next_run.isSome = true →
    (∀ j ∈ l, j.next_run.isSome = true) →
    ∃ k, minJob best l = Except.ok k ∧ k ∈ best :: l ∧
      k.next_run.isSome = true ∧ ∀ x ∈ best :: l, k.nr ≤ x.nr := by
  induction l with
  | nil =>
    intro best hb _
    exact ⟨best, rfl, by simp, hb, by simp⟩
  | cons j js ih =>
    intro best hb hl
    obtain ⟨a, ha⟩ := Option.isSome_iff_exists.mp (hl j (by simp))
    obtain ⟨b, hbv⟩ := Option.isSome_iff_exists.mp hb
    have hja : j.nr = a := by unfold Job.nr; rw [ha]; rfl
    have hbb : best.nr = b := by unfold Job.nr; rw [hbv]; rfl
    unfold minJob
    rw [ha, hbv]
    dsimp only
    by_cases hab : a < b
    · rw [if_pos hab]
      obtain ⟨k, hk, hkmem, hks, hkle⟩ :=
        ih j (by rw [ha]; rfl) (fun x hx => hl x (by simp [hx]))
      refine ⟨k, hk, ?_, hks, ?_⟩
      · rcases List.mem_cons.mp hkmem with hkj | hkjs
        · simp [hkj]
        · simp [hkjs]
      · intro x hx
        rcases List.mem_cons.mp hx with hxb | hxr
        · have hkj := hkle j (by simp)
          rw [hxb, hbb]
          omega
        · exact hkle x hxr
    · rw [if_neg hab]
      obtain ⟨k, hk, hkmem, hks, hkle⟩ :=
        ih best hb (fun x hx => hl x (by simp [hx]))
      refine ⟨k, hk, ?_, hks, ?_⟩
      · rcases List.mem_cons.mp hkmem with hkb | hkjs
        · simp [hkb]
        · simp [hkjs]
      · intro x hx
        rcases List.mem_cons.mp hx with hxb | hxr
        · rw [hxb]
          exact hkle best (by simp)
        · rcases List.mem_cons.mp hxr with hxj | hxjs
          · have hkb := hkle best (by simp)
            rw [hxj, hja]
            omega
          · exact hkle x (by simp [hxjs])

theorem runAllSeq_of_runnable (delay : Nat) (l : List Job)
    (h : ∀ j ∈ l, j.runnable = true) : ∀ now : Nat,
    (runAllSeq now delay l).2.2 = none ∧
    (runAllSeq now delay l).2.1 = l.map Job.id ∧
    ∀ i : Nat, (runAllSeq now delay l).1[i]? =
      (l[i]?).map (fun j => (j.run (now + delay * i)).1) := by
  induction l with
  | nil =>
    intro now
    refine ⟨rfl, rfl, fun i => ?_⟩
    simp [runAllSeq]
  | cons j js ih =>
    intro now
    have hr := Job.run_err_none_of_runnable j now (h j (by simp))
    obtain ⟨ihe, iht, ihg⟩ := ih (fun k hk => h k (by simp [hk])) (now + delay)
    unfold runAllSeq
    rcases hrun : j.run now with ⟨j1, e1⟩
    rw [hrun] at hr
    simp only at hr
    subst hr
    simp only
    refine ⟨ihe, by rw [iht]; rfl, fun i => ?_⟩
    cases i with
    | zero =>
      simp [hrun]
    | succ i =>
      simp only [List.getElem?_cons_succ]
      rw [ihg i]
      have harith : now + delay + delay * i = now + delay * (i + 1) := by
        rw [Nat.mul_succ]
        omega
      rw [harith]

theorem collectFlags_ok_forall (now : Nat) (l : List Job)
    (flags : List (Job × Bool)) (h : collectFlags now l = Except.ok flags) :
    ∀ j ∈ l, ∃ b, j.should_run now = Except.ok b := by
  induction l generalizing flags with
  | nil => simp
  | cons j js ih =>
    unfold collectFlags at h
    cases hsr : j.should_run now with
    | error e => rw [hsr] at h; simp at h
    | ok b =>
      rw [hsr] at h
      cases hrest : collectFlags now js with
      | error e => rw [hrest] at h; simp at h
      | ok rest =>
        intro x hx
        rcases List.mem_cons.mp hx with hxj | hxjs
        · exact ⟨b, by rw [hxj, hsr]⟩
        · exact ih rest hrest x hxjs

theorem pyIntList_length (ps : List (List Char)) :
    ∀ vs : List Int, pyIntList ps = some vs → vs.length = ps.length := by
  induction ps with
  | nil =>
    intro vs h
    unfold pyIntList at h
    rw [← Option.some.inj h]
    rfl
  | cons p ps ih =>
    intro vs h
    unfold pyIntList at h
    cases hp : pyInt p with
    | none => rw [hp] at h; simp at h
    | some v =>
      rw [hp] at h
      cases hrest : pyIntList ps with
      | none => rw [hrest] at h; simp at h
      | some vs2 =>
        rw [hrest] at h
        rw [← Option.some.inj h]
        simp [ih vs2 hrest]

theorem runAllSeq_err_of_mem (delay : Nat) (l : List Job) (j : Job)
    (hj : j ∈ l) (hfail : ∀ t, ((j.run t).2).isSome = true) :
    ∀ now, ((runAllSeq now delay l).2.2).isSome = true := by
  induction l with
  | nil => cases hj
  | cons k ks ih =>
    intro now
    unfold runAllSeq
    rcases hrun : k.run now with ⟨k1, e1⟩
    cases e1 with
    | some e => rfl
    | none =>
      simp only
      rcases List.mem_cons.mp hj with hjk | hjks
      · exfalso
        have hf := hfail now
        rw [hjk, hrun] at hf
        simp at hf
      · exact ih hjks (now + delay)

/-! The claims. -/

/-- C1 counterexample: a configured every-1-second job whose action raises
propagates the failure, but `run` does NOT update the bookkeeping first:
`last_run` stays `None` and `next_run` stays at its old value, contrary to
the claim that they are updated before the caller observes the failure. -/
theorem run_failure_skips_bookkeeping_cex :
    (Job.run { id := 0, interval := 1,
               job_func := some (Except.error "boom"),
               unit := some TimeUnit.seconds, at_time := none,
               last_run := none, next_run := some 1000, period := some 1 }
        1005).2 = some (PyError.actionError "boom") ∧
    (Job.run { id := 0, interval := 1,
               job_func := some (Except.error "boom"),
               unit := some TimeUnit.seconds, at_time := none,
               last_run := none, next_run := some 1000, period := some 1 }
        1005).1.last_run = none ∧
    (Job.run { id := 0, interval := 1,
               job_func := some (Except.error "boom"),
               unit := some TimeUnit.seconds, at_time := none,
               last_run := none, next_run := some 1000, period := some 1 }
        1005).1.next_run = some 1000 := by
  decide

/-- C1 (amended): `run()` propagates an action failure to the caller, but the
`last_run`/`next_run` bookkeeping is updated only when the action returns
successfully — the exception aborts `run` before the bookkeeping lines, so on
failure the job state is left entirely unchanged.  On success `last_run = now`
and `next_run` is recomputed by the due-time algorithm. -/
theorem run_propagates_failure_bookkeeping_on_success_only (j : Job)
    (now : Nat) (u : TimeUnit) (hu : j.unit = some u)
    (hat : j.at_time.isSome = true → u = TimeUnit.days) :
    (∀ e, j.job_func = some (Except.error e) →
       j.run now = (j, some (PyError.actionError e))) ∧
    (j.job_func = some (Except.ok ()) →
       (j.run now).2 = none ∧
       (j.run now).1.last_run = some now ∧
       (j.run now).1.next_run =
         some (match j.at_time with
           | none => now + j.interval * u.durationSecs
           | some a => (now / 86400 + j.interval) * 86400 + a.toSecs)) := by
  constructor
  · intro e he
    exact Job.run_of_fail j now e he
  · intro hok
    cases hata : j.at_time with
    | none =>
      rw [Job.run_of_ok j now hok,
          Job.schedule_next_run_no_anchor { j with last_run := some now }
            now u hu hata]
      exact ⟨rfl, rfl, rfl⟩
    | some a =>
      have hud : u = TimeUnit.days := hat (by rw [hata]; rfl)
      subst hud
      rw [Job.run_of_ok j now hok,
          Job.schedule_next_run_anchor { j with last_run := some now }
            now a hu hata]
      refine ⟨rfl, rfl, ?_⟩
      simp only
      rw [if_neg (by simp)]
      rw [replaceTime_add]

/-- C1 amended witness: a concrete failing run and a concrete successful
run, instantiating the amended theorem. -/
theorem run_propagates_failure_bookkeeping_on_success_only_witness :
    (Job.run { id := 0, interval := 1,
               job_func := some (Except.error "boom"),
               unit := some TimeUnit.seconds, at_time := none,
               last_run := none, next_run := some 1000, period := some 1 }
        1005) =
      ({ id := 0, interval := 1, job_func := some (Except.error "boom"),
         unit := some TimeUnit.seconds, at_time := none,
         last_run := none, next_run := some 1000, period := some 1 },
       some (PyError.actionError "boom")) ∧
    (Job.run { id := 1, interval := 1,
               job_func := some (Except.ok ()),
               unit := some TimeUnit.seconds, at_time := none,
               last_run := none, next_run := some 1000, period := some 1 }
        1005).1.next_run = some 1006 := by
  constructor
  · exact (run_propagates_failure_bookkeeping_on_success_only
      { id := 0, interval := 1, job_func := some (Except.error "boom"),
        unit := some TimeUnit.seconds, at_time := none,
        last_run := none, next_run := some 1000, period := some 1 }
      1005 TimeUnit.seconds rfl (by intro h; simp at h)).1 "boom" rfl
  · have h := (run_propagates_failure_bookkeeping_on_success_only
      { id := 1, interval := 1, job_func := some (Except.ok ()),
        unit := some TimeUnit.seconds, at_time := none,
        last_run := none, next_run := some 1000, period := some 1 }
      1005 TimeUnit.seconds rfl (by intro h; simp at h)).2 rfl
    rw [h.2.2]
    decide

/-- C2: for a `every(1).days.at(anchor).do(f)` job with no prior run, the
initial `next_run` is today at the anchor time when the anchor is strictly
later than the current time of day (the step-5 correction subtracts one day
from the step-3 result), and tomorrow at the anchor time otherwise. -/
theorem first_schedule_same_day_correction (j : Job) (now : Nat) (a : AtTime)
    (hu : j.unit = some TimeUnit.days) (hi : j.interval = 1)
    (ha : j.at_time = some a) (hl : j.last_run = none) :
    (j.schedule_next_run now).2 = none ∧
    (j.schedule_next_run now).1.next_run =
      some (if timeOfDay now < a.toSecs
            then (now / 86400) * 86400 + a.toSecs
            else (now / 86400 + 1) * 86400 + a.toSecs) := by
  rw [Job.schedule_next_run_anchor j now a hu ha]
  refine ⟨rfl, ?_⟩
  rw [hi, replaceTime_add now 1 a]
  by_cases hc : timeOfDay now < a.toSecs
  · rw [if_pos (⟨hl, hc⟩ : j.last_run = none ∧ timeOfDay now < a.toSecs)]
    have e1 : (now / 86400 + 1) * 86400 + a.toSecs - 86400
        = now / 86400 * 86400 + a.toSecs := by omega
    rw [e1, if_pos hc]
  · rw [if_neg (fun h : j.last_run = none ∧ timeOfDay now < a.toSecs =>
          hc h.2),
        if_neg hc]

/-- C2 witness: configured at 09:00 with anchor 10:30 the job is scheduled
for today 10:30; configured at 11:00 it is scheduled for tomorrow 10:30. -/
theorem first_schedule_same_day_correction_witness :
    (Job.schedule_next_run
        { id := 0, interval := 1, job_func := some (Except.ok ()),
          unit := some TimeUnit.days, at_time := some ⟨10, 30, 0⟩ }
        (20000 * 86400 + 9 * 3600)).1.next_run =
      some (20000 * 86400 + 10 * 3600 + 30 * 60) ∧
    (Job.schedule_next_run
        { id := 0, interval := 1, job_func := some (Except.ok ()),
          unit := some TimeUnit.days, at_time := some ⟨10, 30, 0⟩ }
        (20000 * 86400 + 11 * 3600)).1.next_run =
      some (20001 * 86400 + 10 * 3600 + 30 * 60) := by
  constructor
  · have h := first_schedule_same_day_correction
      { id := 0, interval := 1, job_func := some (Except.ok ()),
        unit := some TimeUnit.days, at_time := some ⟨10, 30, 0⟩ }
      (20000 * 86400 + 9 * 3600) ⟨10, 30, 0⟩ rfl rfl rfl rfl
    rw [h.2]
    decide
  · have h := first_schedule_same_day_correction
      { id := 0, interval := 1, job_func := some (Except.ok ()),
        unit := some TimeUnit.days, at_time := some ⟨10, 30, 0⟩ }
      (20000 * 86400 + 11 * 3600) ⟨10, 30, 0⟩ rfl rfl rfl rfl
    rw [h.2]
    decide

/-- The condition under which the first-schedule same-day correction (step 5
of the due-time algorithm) fires. -/
def Job.sameDayCorrection (j : Job) (now : Nat) : Bool :=
  j.last_run.isNone &&
    match j.at_time with
    | some a => decide (timeOfDay now < a.toSecs)
    | none => false

/-- C5: for a positive interval and a recognized unit (with an anchor only on
the days unit), `_schedule_next_run` completes without error, and whenever the
same-day anchoring adjustment does not fire the computed `next_run` is
strictly later than the instant of computation. -/
theorem next_run_strictly_future (j : Job) (now : Nat) (u : TimeUnit)
    (hu : j.unit = some u) (hpos : 1 ≤ j.interval)
    (hat : j.at_time.isSome = true → u = TimeUnit.days)
    (hcorr : j.sameDayCorrection now = false) :
    (j.schedule_next_run now).2 = none ∧
    ∀ t, (j.schedule_next_run now).1.next_run = some t → now < t := by
  cases hata : j.at_time with
  | none =>
    rw [Job.schedule_next_run_no_anchor j now u hu hata]
    refine ⟨rfl, ?_⟩
    intro t ht
    have htv := Option.some.inj ht
    have hd := u.durationSecs_pos
    have hmul : 1 * 1 ≤ j.interval * u.durationSecs :=
      Nat.mul_le_mul hpos hd
    omega
  | some a =>
    have hud : u = TimeUnit.days := hat (by rw [hata]; rfl)
    subst hud
    rw [Job.schedule_next_run_anchor j now a hu hata]
    refine ⟨rfl, ?_⟩
    intro t ht
    have hcond : ¬(j.last_run = none ∧ timeOfDay now < a.toSecs) := by
      rintro ⟨h1, h2⟩
      unfold Job.sameDayCorrection at hcorr
      rw [hata, h1] at hcorr
      simp [h2] at hcorr
    rw [if_neg hcond] at ht
    have htv := Option.some.inj ht
    rw [replaceTime_add] at htv
    have hmod : now % 86400 < 86400 := Nat.mod_lt now (by norm_num)
    have hdm : 86400 * (now / 86400) + now % 86400 = now :=
      Nat.div_add_mod now 86400
    omega

/-- C5 witness: an every-2-weeks job scheduled at a concrete instant gets a
strictly later `next_run`. -/
theorem next_run_strictly_future_witness :
    (Job.schedule_next_run
        { id := 0, interval := 2, job_func := some (Except.ok ()),
          unit := some TimeUnit.weeks }
        1000000).2 = none ∧
    1000000 < 1000000 + 2 * 604800 ∧
    (Job.schedule_next_run
        { id := 0, interval := 2, job_func := some (Except.ok ()),
          unit := some TimeUnit.weeks }
        1000000).1.next_run = some (1000000 + 2 * 604800) := by
  have h := next_run_strictly_future
    { id := 0, interval := 2, job_func := some (Except.ok ()),
      unit := some TimeUnit.weeks }
    1000000 TimeUnit.weeks rfl (by norm_num) (by intro h; simp at h) rfl
  refine ⟨h.1, h.2 (1000000 + 2 * 604800) (by decide), by decide⟩

/-- C3: with every job in the collection fully configured, `run_pending`
raises nothing, evaluates the due predicate `should_run` (`now >= next_run`)
for every job, and the trace of executed jobs is exactly the due jobs
ordered ascending by `next_run`. -/
theorem run_pending_selects_and_orders (s : Scheduler) (now : Nat)
    (h : ∀ j ∈ s.jobs, j.wellConfigured = true) :
    (s.run_pending now).2.2 = none ∧
    (∀ j ∈ s.jobs, j.should_run now = Except.ok (j.due now)) ∧
    ∃ l : List Job,
      (s.run_pending now).2.1 = l.map Job.id ∧
      l.Perm (s.jobs.filter (fun j => j.due now)) ∧
      l.Pairwise (fun a b => a.nr ≤ b.nr) := by
  rw [run_pending_of_wellConfigured s now h]
  refine ⟨rfl, ?_,
    ⟨sortByNextRun (s.jobs.filter (fun j => j.due now)), rfl,
     sortByNextRun_perm _, sortByNextRun_pairwise _⟩⟩
  intro j hj
  obtain ⟨t, ht⟩ :=
    Option.isSome_iff_exists.mp (wellConfigured_next_run j (h j hj))
  unfold Job.should_run Job.due Job.nr
  rw [ht]
  rfl

/-- C3 witness: three one-second jobs, two due (`next_run` 50 and 40, now
100) and one not (1000); the trace is the two due jobs in ascending
`next_run` order. -/
theorem run_pending_selects_and_orders_witness :
    (Scheduler.run_pending
        ⟨[{ id := 1, interval := 1, job_func := some (Except.ok ()),
            unit := some TimeUnit.seconds, next_run := some 50 },
          { id := 2, interval := 1, job_func := some (Except.ok ()),
            unit := some TimeUnit.seconds, next_run := some 40 },
          { id := 3, interval := 1, job_func := some (Except.ok ()),
            unit := some TimeUnit.seconds, next_run := some 1000 }]⟩
        100).2.2 = none ∧
    (Scheduler.run_pending
        ⟨[{ id := 1, interval := 1, job_func := some (Except.ok ()),
            unit := some TimeUnit.seconds, next_run := some 50 },
          { id := 2, interval := 1, job_func := some (Except.ok ()),
            unit := some TimeUnit.seconds, next_run := some 40 },
          { id := 3, interval := 1, job_func := some (Except.ok ()),
            unit := some TimeUnit.seconds, next_run := some 1000 }]⟩
        100).2.1 = [2, 1] := by
  refine ⟨(run_pending_selects_and_orders _ 100 ?_).1, by decide⟩
  decide

/-- C9: when no job is due (`now < next_run` for every job), `run_pending`
runs nothing and returns the scheduler with every job — in particular every
`last_run` and `next_run` — unchanged. -/
theorem run_pending_noop_when_none_due (s : Scheduler) (now : Nat)
    (hns : ∀ j ∈ s.jobs, j.next_run.isSome = true)
    (hnd : ∀ j ∈ s.jobs, ∀ t, j.next_run = some t → now < t) :
    s.run_pending now = (s, [], none) := by
  have hdue : ∀ j ∈ s.jobs, j.due now = false := by
    intro j hj
    obtain ⟨t, ht⟩ := Option.isSome_iff_exists.mp (hns j hj)
    unfold Job.due Job.nr
    rw [ht]
    simp only [Option.getD_some]
    exact decide_eq_false (Nat.not_le.mpr (hnd j hj t ht))
  have hfil : ((s.jobs.map (fun j => (j, j.due now))).filter
      (fun p => p.2)) = [] := by
    rw [List.filter_eq_nil_iff]
    intro p hp
    obtain ⟨j, hj, hpj⟩ := List.mem_map.mp hp
    rw [← hpj]
    simp [hdue j hj]
  have hmap : s.jobs.map (applyRuns []) = s.jobs :=
    (List.map_congr_left (fun j _ => rfl)).trans (List.map_id s.jobs)
  unfold Scheduler.run_pending
  rw [shouldRun_flags now s.jobs hns]
  simp only [hfil, List.map_nil, sortByNextRun, runSeq]
  rw [hmap]

/-- C9 witness: one job with `next_run = 1000` checked at `now = 100` is
untouched. -/
theorem run_pending_noop_when_none_due_witness :
    Scheduler.run_pending
        ⟨[{ id := 1, interval := 1, job_func := some (Except.ok ()),
            unit := some TimeUnit.seconds, next_run := some 1000 }]⟩ 100 =
      (⟨[{ id := 1, interval := 1, job_func := some (Except.ok ()),
           unit := some TimeUnit.seconds, next_run := some 1000 }]⟩,
       [], none) := by
  refine run_pending_noop_when_none_due _ 100 (by decide) ?_
  intro j hj t ht
  simp only [List.mem_singleton] at hj
  subst hj
  simp only at ht
  have := Option.some.inj ht
  omega

/-- C4: a job overdue by several periods is run exactly once by one
`run_pending` invocation, and its new `next_run` is the actual run time plus
its period (`now + interval × unit`), not a value derived from missed
ticks; its `last_run` is the actual run time. -/
theorem overdue_job_runs_once (s : Scheduler) (now : Nat) (j : Job)
    (u : TimeUnit)
    (h : ∀ k ∈ s.jobs, k.wellConfigured = true)
    (hnd : (s.jobs.map Job.id).Nodup)
    (hj : j ∈ s.jobs) (hdue : j.due now = true)
    (hu : j.unit = some u) (hat : j.at_time = none) :
    ((s.run_pending now).2.1).count j.id = 1 ∧
    ∃ j2, j2 ∈ (s.run_pending now).1.jobs ∧ j2.id = j.id ∧
      j2.last_run = some now ∧
      j2.next_run = some (now + j.interval * u.durationSecs) := by
  have hrun : (j.run now).1 =
      { j with last_run := some now,
               period := some (j.interval * u.durationSecs),
               next_run := some (now + j.interval * u.durationSecs) } := by
    have hok : j.job_func = some (Except.ok ()) := by
      have := wellConfigured_runnable j (h j hj)
      exact ((Job.runnable_iff j).mp this).1
    rw [Job.run_of_ok j now hok,
        Job.schedule_next_run_no_anchor { j with last_run := some now }
          now u hu hat]
  constructor
  · rw [run_pending_of_wellConfigured s now h]
    have hperm : ((sortByNextRun (s.jobs.filter (fun k => k.due now))).map
          Job.id).Perm
        ((s.jobs.filter (fun k => k.due now)).map Job.id) :=
      (sortByNextRun_perm _).map Job.id
    rw [hperm.count_eq]
    have hsub : ((s.jobs.filter (fun k => k.due now)).map Job.id).Sublist
        (s.jobs.map Job.id) :=
      (List.filter_sublist s.jobs).map Job.id
    exact List.count_eq_one_of_mem (hnd.sublist hsub)
      (List.mem_map_of_mem Job.id (List.mem_filter.mpr ⟨hj, hdue⟩))
  · refine ⟨(j.run now).1, ?_, ?_, ?_, ?_⟩
    · rw [run_pending_jobs_char s now h hnd]
      exact List.mem_map.mpr ⟨j, hj, by rw [if_pos hdue]⟩
    · rw [hrun]
    · rw [hrun]
    · rw [hrun]

/-- C4 witness: a 1-second job with `next_run = 40`, unchecked until
`now = 45` (five periods late), runs once and is rescheduled for 46. -/
theorem overdue_job_runs_once_witness :
    ((Scheduler.run_pending
        ⟨[{ id := 1, interval := 1, job_func := some (Except.ok ()),
            unit := some TimeUnit.seconds, next_run := some 40 }]⟩
        45).2.1).count 1 = 1 ∧
    ∃ j2, j2 ∈ (Scheduler.run_pending
        ⟨[{ id := 1, interval := 1, job_func := some (Except.ok ()),
            unit := some TimeUnit.seconds, next_run := some 40 }]⟩
        45).1.jobs ∧ j2.id = 1 ∧
      j2.last_run = some 45 ∧ j2.next_run = some (45 + 1 * 1) := by
  exact overdue_job_runs_once
    ⟨[{ id := 1, interval := 1, job_func := some (Except.ok ()),
        unit := some TimeUnit.seconds, next_run := some 40 }]⟩
    45
    { id := 1, interval := 1, job_func := some (Except.ok ()),
      unit := some TimeUnit.seconds, next_run := some 40 }
    TimeUnit.seconds (by decide) (by decide) (by decide) (by decide)
    rfl rfl

/-- C8: `run_all` runs every job in the collection unconditionally (no due
check), in collection order, with `delay` seconds of sleep after each run
(so the k-th job, 0-based, runs at `now + delay * k`), and each run updates
that job's bookkeeping exactly as a `run_pending`-triggered run would:
position `i` of the new collection holds `(jobs[i].run (now + delay * i)).1`. -/
theorem run_all_unconditional_in_order (s : Scheduler) (now delay : Nat)
    (h : ∀ j ∈ s.jobs, j.runnable = true) :
    (s.run_all now delay).2.2 = none ∧
    (s.run_all now delay).2.1 = s.jobs.map Job.id ∧
    ∀ i : Nat, ((s.run_all now delay).1.jobs)[i]? =
      (s.jobs[i]?).map (fun j => (j.run (now + delay * i)).1) := by
  obtain ⟨he, ht, hg⟩ := runAllSeq_of_runnable delay s.jobs h now
  exact ⟨he, ht, hg⟩

/-- C8 witness: three jobs, only one due, all three run in collection order
at 0.0/0.1/0.2 (delay 7 model units here), with updated `next_run`s. -/
theorem run_all_unconditional_in_order_witness :
    (Scheduler.run_all
        ⟨[{ id := 1, interval := 1, job_func := some (Except.ok ()),
            unit := some TimeUnit.seconds, next_run := some 50 },
          { id := 2, interval := 1, job_func := some (Except.ok ()),
            unit := some TimeUnit.minutes, next_run := some 4000 },
          { id := 3, interval := 2, job_func := some (Except.ok ()),
            unit := some TimeUnit.hours, next_run := some 100000 }]⟩
        100 7).2.2 = none ∧
    (Scheduler.run_all
        ⟨[{ id := 1, interval := 1, job_func := some (Except.ok ()),
            unit := some TimeUnit.seconds, next_run := some 50 },
          { id := 2, interval := 1, job_func := some (Except.ok ()),
            unit := some TimeUnit.minutes, next_run := some 4000 },
          { id := 3, interval := 2, job_func := some (Except.ok ()),
            unit := some TimeUnit.hours, next_run := some 100000 }]⟩
        100 7).2.1 = [1, 2, 3] ∧
    ((Scheduler.run_all
        ⟨[{ id := 1, interval := 1, job_func := some (Except.ok ()),
            unit := some TimeUnit.seconds, next_run := some 50 },
          { id := 2, interval := 1, job_func := some (Except.ok ()),
            unit := some TimeUnit.minutes, next_run := some 4000 },
          { id := 3, interval := 2, job_func := some (Except.ok ()),
            unit := some TimeUnit.hours, next_run := some 100000 }]⟩
        100 7).1.jobs.map Job.next_run) =
      [some 101, some (107 + 60), some (114 + 7200)] := by
  have h := run_all_unconditional_in_order
    ⟨[{ id := 1, interval := 1, job_func := some (Except.ok ()),
        unit := some TimeUnit.seconds, next_run := some 50 },
      { id := 2, interval := 1, job_func := some (Except.ok ()),
        unit := some TimeUnit.minutes, next_run := some 4000 },
      { id := 3, interval := 2, job_func := some (Except.ok ()),
        unit := some TimeUnit.hours, next_run := some 100000 }]⟩
    100 7 (by decide)
  exact ⟨h.1, h.2.1, by decide⟩

/-- C7: `Scheduler.next_run` is the minimum `next_run` across the collection;
after `clear()` the collection is empty and both `next_run` and
`idle_seconds` raise the empty-scheduler error. -/
theorem next_run_min_and_empty_raises (s : Scheduler) (now : Nat) :
    (Scheduler.clear s).jobs = [] ∧
    (Scheduler.clear s).next_run = Except.error PyError.valueError ∧
    (Scheduler.clear s).idle_seconds now = Except.error PyError.valueError ∧
    (s.jobs ≠ [] → (∀ j ∈ s.jobs, j.next_run.isSome = true) →
      ∃ m, s.next_run = Except.ok (some m) ∧
        (∃ j ∈ s.jobs, j.next_run = some m) ∧
        ∀ j ∈ s.jobs, m ≤ j.nr) := by
  refine ⟨rfl, rfl, rfl, ?_⟩
  intro hne hns
  cases hjobs : s.jobs with
  | nil => exact absurd hjobs hne
  | cons j0 js =>
    obtain ⟨k, hk, hkmem, hks, hkle⟩ :=
      minJob_spec js j0 (hns j0 (by rw [hjobs]; simp))
        (fun x hx => hns x (by rw [hjobs]; simp [hx]))
    obtain ⟨m, hm⟩ := Option.isSome_iff_exists.mp hks
    have hknr : k.nr = m := by unfold Job.nr; rw [hm]; rfl
    refine ⟨m, ?_, ⟨k, hkmem, hm⟩, ?_⟩
    · unfold Scheduler.next_run
      rw [hjobs]
      simp only [hk, Except.map, hm]
    · intro x hx
      rw [← hknr]
      exact hkle x hx

/-- C7 witness: a two-job scheduler has minimum `next_run` 40; after
`clear()` both queries raise. -/
theorem next_run_min_and_empty_raises_witness :
    (Scheduler.clear ⟨[{ id := 1, interval := 1, next_run := some 50 }]⟩).jobs
        = [] ∧
    (Scheduler.clear
        ⟨[{ id := 1, interval := 1, next_run := some 50 }]⟩).next_run =
      Except.error PyError.valueError ∧
    (Scheduler.clear
        ⟨[{ id := 1, interval := 1, next_run := some 50 }]⟩).idle_seconds 100 =
      Except.error PyError.valueError ∧
    ∃ m, (Scheduler.next_run
        ⟨[{ id := 1, interval := 1, next_run := some 50 },
          { id := 2, interval := 1, next_run := some 40 }]⟩) =
        Except.ok (some m) ∧
      (∃ j ∈ [({ id := 1, interval := 1, next_run := some 50 } : Job),
              { id := 2, interval := 1, next_run := some 40 }],
         j.next_run = some m) ∧
      ∀ j ∈ [({ id := 1, interval := 1, next_run := some 50 } : Job),
             { id := 2, interval := 1, next_run := some 40 }], m ≤ j.nr := by
  have h1 := next_run_min_and_empty_raises
    ⟨[{ id := 1, interval := 1, next_run := some 50 }]⟩ 100
  have h2 := next_run_min_and_empty_raises
    ⟨[{ id := 1, interval := 1, next_run := some 50 },
      { id := 2, interval := 1, next_run := some 40 }]⟩ 100
  exact ⟨h1.1, h1.2.1, h1.2.2.1, h2.2.2.2 (by decide) (by decide)⟩

/-- C6 counterexample: `"1_0:30"` is not of the spec's strict `"HH:MM"`
format, yet `at()` on a days job accepts it — Python `int()` permits
PEP 515 underscore grouping, so the parts parse as 10 and 30 and
`at_time` is stored as 10:30.  So `at` does not fail exactly on the
strings that are not parseable as `"HH:MM"`. -/
theorem at_accepts_non_hhmm_cex :
    specHHMM ['1', '_', '0', ':', '3', '0'] = none ∧
    Job.«at» { id := 0, interval := 1, unit := some TimeUnit.days }
        ['1', '_', '0', ':', '3', '0'] =
      Except.ok { id := 0, interval := 1, unit := some TimeUnit.days,
                  at_time := some ⟨10, 30, 0⟩ } := by
  decide

/-- C6 (amended): `at(time_string)` on a non-days unit raises the
configuration assertion; on a days unit it raises `ValueError` exactly when
the colon-split parts do not all parse under Python `int()` or the split
does not have exactly two parts (so any seconds component is rejected, while
surrounding whitespace, an explicit sign, underscore digit grouping and
non-ASCII decimal digits are tolerated beyond the strict `"HH:MM"` format),
raises the range assertion when the parsed hour is outside [0, 23] or
minute outside [0, 59], and otherwise stores `at_time = (hour, minute, 0)`
on the same job and returns it. -/
theorem at_validation (j : Job) (ts : List Char) :
    (j.unit ≠ some TimeUnit.days →
       Job.«at» j ts = Except.error PyError.assertionError) ∧
    (j.unit = some TimeUnit.days →
      (pyIntList (splitColon ts) = none →
         Job.«at» j ts = Except.error PyError.valueError) ∧
      ((splitColon ts).length ≠ 2 →
         Job.«at» j ts = Except.error PyError.valueError) ∧
      ∀ h m : Int, pyIntList (splitColon ts) = some [h, m] →
        ((¬(0 ≤ h ∧ h ≤ 23) ∨ ¬(0 ≤ m ∧ m ≤ 59)) →
           Job.«at» j ts = Except.error PyError.assertionError) ∧
        ((0 ≤ h ∧ h ≤ 23) → (0 ≤ m ∧ m ≤ 59) →
           Job.«at» j ts =
             Except.ok { j with at_time := some ⟨h.toNat, m.toNat, 0⟩ })) := by
  constructor
  · intro hne
    unfold Job.«at»
    rw [if_neg hne]
  · intro hd
    refine ⟨?_, ?_, ?_⟩
    · intro hp
      unfold Job.«at»
      rw [if_pos hd, hp]
    · intro hlen
      unfold Job.«at»
      rw [if_pos hd]
      cases hp : pyIntList (splitColon ts) with
      | none => rfl
      | some vs =>
        have hvs := pyIntList_length _ vs hp
        match vs, hvs with
        | [], _ => rfl
        | [x], _ => rfl
        | [x, y], hvs => exact absurd hvs.symm hlen
        | x :: y :: z :: r, _ => rfl
    · intro h m hp
      unfold Job.«at»
      rw [if_pos hd, hp]
      constructor
      · intro hbad
        rcases hbad with hh | hm
        · dsimp only
          rw [if_neg hh]
        · dsimp only
          by_cases hh23 : 0 ≤ h ∧ h ≤ 23
          · rw [if_pos hh23, if_neg hm]
          · rw [if_neg hh23]
      · intro hh hm
        dsimp only
        rw [if_pos hh, if_pos hm]

/-- C6 witness: on a days job, `at("10:30")` succeeds storing 10:30, as do
the `int()`-tolerant variants `at("1_0:30")`, `at("+10:30")` and Arabic-
Indic `at("٢٣:59")`; `at("25:00")`, `at("10:60")` hit the range assertion;
`at("abc")` and `at("10:30:00")` (a seconds component) hit `ValueError`;
`at` on a seconds-unit job hits the unit assertion. -/
theorem at_validation_witness :
    Job.«at» { id := 0, interval := 1, unit := some TimeUnit.days }
        ['1', '0', ':', '3', '0'] =
      Except.ok { id := 0, interval := 1, unit := some TimeUnit.days,
                  at_time := some ⟨10, 30, 0⟩ } ∧
    Job.«at» { id := 0, interval := 1, unit := some TimeUnit.days }
        ['2', '5', ':', '0', '0'] = Except.error PyError.assertionError ∧
    Job.«at» { id := 0, interval := 1, unit := some TimeUnit.days }
        ['1', '0', ':', '6', '0'] = Except.error PyError.assertionError ∧
    Job.«at» { id := 0, interval := 1, unit := some TimeUnit.days }
        ['a', 'b', 'c'] = Except.error PyError.valueError ∧
    Job.«at» { id := 0, interval := 1, unit := some TimeUnit.days }
        ['1', '0', ':', '3', '0', ':', '0', '0'] =
      Except.error PyError.valueError ∧
    Job.«at» { id := 0, interval := 1, unit := some TimeUnit.days }
        ['1', '_', '0', ':', '3', '0'] =
      Except.ok { id := 0, interval := 1, unit := some TimeUnit.days,
                  at_time := some ⟨10, 30, 0⟩ } ∧
    Job.«at» { id := 0, interval := 1, unit := some TimeUnit.days }
        ['+', '1', '0', ':', '3', '0'] =
      Except.ok { id := 0, interval := 1, unit := some TimeUnit.days,
                  at_time := some ⟨10, 30, 0⟩ } ∧
    Job.«at» { id := 0, interval := 1, unit := some TimeUnit.days }
        ['٢', '٣', ':', '5', '9'] =
      Except.ok { id := 0, interval := 1, unit := some TimeUnit.days,
                  at_time := some ⟨23, 59, 0⟩ } ∧
    Job.«at» { id := 0, interval := 1, unit := some TimeUnit.seconds }
        ['1', '0', ':', '3', '0'] = Except.error PyError.assertionError := by
  refine ⟨?_, ?_, ?_, ?_, ?_, ?_, ?_, ?_, ?_⟩
  · exact (((at_validation
      { id := 0, interval := 1, unit := some TimeUnit.days }
      ['1', '0', ':', '3', '0']).2 rfl).2.2 10 30 (by decide)).2
      (by decide) (by decide)
  · exact (((at_validation
      { id := 0, interval := 1, unit := some TimeUnit.days }
      ['2', '5', ':', '0', '0']).2 rfl).2.2 25 0 (by decide)).1
      (Or.inl (by decide))
  · exact (((at_validation
      { id := 0, interval := 1, unit := some TimeUnit.days }
      ['1', '0', ':', '6', '0']).2 rfl).2.2 10 60 (by decide)).1
      (Or.inr (by decide))
  · exact ((at_validation
      { id := 0, interval := 1, unit := some TimeUnit.days }
      ['a', 'b', 'c']).2 rfl).1 (by decide)
  · exact ((at_validation
      { id := 0, interval := 1, unit := some TimeUnit.days }
      ['1', '0', ':', '3', '0', ':', '0', '0']).2 rfl).2.1 (by decide)
  · exact (((at_validation
      { id := 0, interval := 1, unit := some TimeUnit.days }
      ['1', '_', '0', ':', '3', '0']).2 rfl).2.2 10 30 (by decide)).2
      (by decide) (by decide)
  · exact (((at_validation
      { id := 0, interval := 1, unit := some TimeUnit.days }
      ['+', '1', '0', ':', '3', '0']).2 rfl).2.2 10 30 (by decide)).2
      (by decide) (by decide)
  · exact (((at_validation
      { id := 0, interval := 1, unit := some TimeUnit.days }
      ['٢', '٣', ':', '5', '9']).2 rfl).2.2 23 59 (by decide)).2
      (by decide) (by decide)
  · exact (at_validation
      { id := 0, interval := 1, unit := some TimeUnit.seconds }
      ['1', '0', ':', '3', '0']).1 (by decide)

/-- C10: a job fresh from `every()` on which `do()` has not been called has
no bound action and no `next_run`; `run` raises `TypeError` (calling `None`)
leaving the job unchanged, `should_run` raises `TypeError` (comparing
against `None`), and any `run_pending` or `run_all` over a collection
containing such a job raises — so both are well-defined only when every job
has completed configuration via `do()`. -/
theorem unconfigured_job_unusable (s : Scheduler)
    (interval id now delay : Nat) :
    ((s.every interval id).2.job_func = none ∧
     (s.every interval id).2.next_run = none ∧
     (s.every interval id).1.jobs = s.jobs ++ [(s.every interval id).2]) ∧
    (s.every interval id).2.run now =
      ((s.every interval id).2, some PyError.typeError) ∧
    (s.every interval id).2.should_run now = Except.error PyError.typeError ∧
    ∀ s2 : Scheduler, (s.every interval id).2 ∈ s2.jobs →
      (s2.run_pending now).2.2.isSome = true ∧
      (s2.run_all now delay).2.2.isSome = true := by
  refine ⟨⟨rfl, rfl, rfl⟩, rfl, rfl, ?_⟩
  intro s2 hmem
  constructor
  · unfold Scheduler.run_pending
    cases hm : collectFlags now s2.jobs with
    | error e => rfl
    | ok flagged =>
      exfalso
      obtain ⟨b, hb⟩ := collectFlags_ok_forall now s2.jobs flagged hm _ hmem
      simp [Job.should_run, Scheduler.every, Job.init] at hb
  · exact runAllSeq_err_of_mem delay s2.jobs _ hmem
      (fun t => by rw [Job.run_of_none _ t rfl]; rfl) now

/-- C10 witness: a concrete unconfigured job (`every(3)`, no `do`) and a
scheduler containing it. -/
theorem unconfigured_job_unusable_witness :
    (Job.init 7 3).run 50 = (Job.init 7 3, some PyError.typeError) ∧
    (Scheduler.run_pending ⟨[Job.init 7 3]⟩ 50).2.2.isSome = true ∧
    (Scheduler.run_all ⟨[Job.init 7 3]⟩ 50 2).2.2.isSome = true := by
  have h := unconfigured_job_unusable ⟨[]⟩ 3 7 50 2
  exact ⟨h.2.1, (h.2.2.2 ⟨[Job.init 7 3]⟩ (by decide)).1,
    (h.2.2.2 ⟨[Job.init 7 3]⟩ (by decide)).2⟩
